import Mathlib

/-!
Shallow embedding of the session-oriented command executor
(`src/executor.ts` of the terminal-mcp-server repository).

Pure functions of the source are translated directly; the parts that
touch the outside world (file system, network, child processes, the
interactive shell stream) are parameterized by explicit oracles so the
surrounding control flow can be stated and proved exactly as written.
-/

namespace TerminalMcp

/-! ### Character and string helpers

JavaScript string primitives (`includes`, `startsWith`, `substring`,
`trim`, template literals) are mapped to Lean `String`/`List Char`
operations.  Quote characters are named to keep literals readable. -/

def squote : Char := Char.ofNat 39

def dquote : Char := Char.ofNat 34

/-- `listStartsWith hay pat` : `pat` is a prefix of `hay` (decidable, Bool). -/
def listStartsWith : List Char → List Char → Bool
  | _, [] => true
  | [], _ :: _ => false
  | c :: cs, p :: ps => c = p && listStartsWith cs ps

/-- Substring occurrence on character lists, the semantics of JavaScript
`String.prototype.includes`. -/
def containsSub : List Char → List Char → Bool
  | [], pat => pat.isEmpty
  | hay@(_ :: tail), pat => listStartsWith hay pat || containsSub tail pat

/-- `strContains s pat` models JavaScript `s.includes(pat)`. -/
def strContains (s pat : String) : Bool := containsSub s.data pat.data

/-- The character class `\s` of JavaScript regular expressions and the
whitespace set of `String.prototype.trim` (ASCII whitespace; the Unicode
space characters JavaScript also accepts are not modelled). -/
def isJsSpace (c : Char) : Bool :=
  c.isWhitespace || c = Char.ofNat 11 || c = Char.ofNat 12

/-- `s.trim()`. -/
def jsTrim (s : String) : String :=
  ⟨((s.data.dropWhile isJsSpace).reverse.dropWhile isJsSpace).reverse⟩

/-- ASCII lowering, the effect of `toLowerCase()` on the ASCII range. -/
def charLower (c : Char) : Char :=
  if 65 ≤ c.toNat ∧ c.toNat ≤ 90 then Char.ofNat (c.toNat + 32) else c

/-- `s.toLowerCase()`. -/
def jsToLower (s : String) : String := ⟨s.data.map charLower⟩

/-- `s.startsWith(pre)`. -/
def jsStartsWith (s pre : String) : Bool := listStartsWith s.data pre.data

/-- `s.substring(0, n)`. -/
def jsTake (s : String) (n : Nat) : String := ⟨s.data.take n⟩

/-- Drop the first `n` characters (used for `slice(1, ...)`). -/
def jsDrop (s : String) (n : Nat) : String := ⟨s.data.drop n⟩

/-- Drop the last `n` characters (used for `slice(..., -1)`). -/
def jsDropRight (s : String) (n : Nat) : String := ⟨s.data.take (s.data.length - n)⟩

/-- `s.includes(c)` for a single character. -/
def jsContainsChar (s : String) (c : Char) : Bool := s.data.any (fun x => x = c)

/-- `s[0]` (only read under a length guard in the source). -/
def jsFront (s : String) : Char := s.data.headD (Char.ofNat 0)

/-- `s[s.length - 1]` (only read under a length guard in the source). -/
def jsBack (s : String) : Char := s.data.getLastD (Char.ofNat 0)

/-- Splitting on a one-character separator, the semantics of
`s.split(sep)` (empty pieces are kept). -/
def splitOnCharAux (sep : Char) : List Char → List Char → List (List Char)
  | [], acc => [acc.reverse]
  | c :: rest, acc =>
    if c = sep then acc.reverse :: splitOnCharAux sep rest []
    else splitOnCharAux sep rest (c :: acc)

/-- `s.split(String.fromCharCode(sep))`. -/
def jsSplitOnChar (sep : Char) (s : String) : List String :=
  (splitOnCharAux sep s.data []).map String.mk

/-- `value.replace(/"/g, '\\"')`. -/
def escapeDquotes (s : String) : String :=
  ⟨s.data.foldr (fun c acc => if c = dquote then Char.ofNat 92 :: dquote :: acc else c :: acc) []⟩

/-- `array.join(sep)`. -/
def joinSep (sep : String) : List String → String
  | [] => ""
  | x :: xs => xs.foldl (fun a b => a ++ sep ++ b) x

/-! ### Error taxonomy (the custom Error classes of `executor.ts`) -/

/-- The custom error classes thrown by the executor.  `commandExecutionError`
carries the optional partial stdout/stderr of the failing call, and
`sshConnectionError` carries the message of the underlying cause when one
was attached (`originalError`). -/
inductive ExecError where
  | commandExecutionError (msg : String) (stdoutPart stderrPart : Option String)
  | timeoutError (msg : String)
  | sshConnectionError (msg : String) (originalMessage : Option String)
  | validationError (msg : String)
  | securityError (msg : String)
  | resourceLimitError (msg : String)
deriving DecidableEq, Repr

/-- The `message` property every one of the custom error classes carries. -/
def ExecError.message : ExecError → String
  | .commandExecutionError m _ _ => m
  | .timeoutError m => m
  | .sshConnectionError m _ => m
  | .validationError m => m
  | .securityError m => m
  | .resourceLimitError m => m

/-- Discriminator used to compare an error against the `ValidationError` class. -/
def ExecError.isValidation : ExecError → Bool
  | .validationError _ => true
  | _ => false

/-- Discriminator for the `ResourceLimitError` class. -/
def ExecError.isResourceLimit : ExecError → Bool
  | .resourceLimitError _ => true
  | _ => false

/-! ### Result and configuration records -/

/-- The `{stdout, stderr, exitCode}` value returned by every execution path. -/
structure ExecResult where
  stdout : String
  stderr : String
  exitCode : Int
deriving DecidableEq, Repr

/-- `ExecutorConfig` of `executor.ts`. -/
structure ExecutorConfig where
  sessionTimeout : Nat
  maxRetries : Nat
  connectionTimeout : Nat
  maxConcurrentSessions : Nat
  maxOutputSize : Nat
  enableCommandValidation : Bool
  commandBlacklist : List String
  allowedWorkingDirectories : Option (List String)
deriving DecidableEq, Repr

/-! ### The session store

`private sessions: Map<string, {...}>`.  Only the fields the modelled
control flow reads or writes are kept; the live handles (ssh client,
shell stream, timers) are outside a pure embedding and none of the
modelled branches inspects their value. -/

/-- One entry of the session map. -/
structure SessionData where
  env : List (String × String) := []
  workingDirectory : String := ""
  host : Option String := none
  username : Option String := none
deriving DecidableEq, Repr

/-- The session map, as an association list keyed by the session-key string. -/
abbrev SessionStore := List (String × SessionData)

/-- `Map.get`. -/
def storeGet : SessionStore → String → Option SessionData
  | [], _ => none
  | kv :: rest, key => if kv.1 = key then some kv.2 else storeGet rest key

/-- `Map.set` : replaces the existing entry for `key`, otherwise appends. -/
def storeSet : SessionStore → String → SessionData → SessionStore
  | [], key, v => [(key, v)]
  | kv :: rest, key, v =>
    if kv.1 = key then (key, v) :: rest else kv :: storeSet rest key v

/-- `Map.delete`. -/
def storeDelete : SessionStore → String → SessionStore
  | [], _ => []
  | kv :: rest, key => if kv.1 = key then rest else kv :: storeDelete rest key

/-- `Map.has`. -/
def storeHas (store : SessionStore) (key : String) : Bool :=
  (storeGet store key).isSome

/-! ### Environment overlays (plain JavaScript objects used as maps) -/

/-- Set one binding, replacing an existing one for the same name. -/
def envSet : List (String × String) → String → String → List (String × String)
  | [], k, v => [(k, v)]
  | kv :: rest, k, v =>
    if kv.1 = k then (k, v) :: rest else kv :: envSet rest k v

/-- Read one binding. -/
def envGet : List (String × String) → String → Option String
  | [], _ => none
  | kv :: rest, k => if kv.1 = k then some kv.2 else envGet rest k

/-- `{ ...base, ...overlay }` : the overlay wins on conflicting names. -/
def envMerge (base overlay : List (String × String)) : List (String × String) :=
  overlay.foldl (fun acc kv => envSet acc kv.1 kv.2) base

/-! ### Validator -/

/-- Characters admitted by the session-name pattern `^[a-zA-Z0-9_-]{1,64}$`. -/
def isSessionNameChar (c : Char) : Bool :=
  c.isAlpha || c.isDigit || c = Char.ofNat 95 || c = Char.ofNat 45

/-- `validateSessionName` of `executor.ts` (an empty string is falsy in
JavaScript, hence the dedicated first message). -/
def validateSessionName (sessionName : String) : Except ExecError Unit :=
  if sessionName = "" then
    .error (.validationError "Session name is required and must be a string")
  else if !(1 ≤ sessionName.length && sessionName.length ≤ 64
      && sessionName.data.all isSessionNameChar) then
    .error (.validationError "Session name must be 1-64 characters and contain only alphanumeric characters, underscores, and hyphens")
  else
    .ok ()

/-- `validateCommand` of `executor.ts`.  The dangerous-pattern matcher
(the fixed list `DANGEROUS_PATTERNS` of regular expressions applied to
the trimmed command) is passed as the boolean oracle `dangerous`; every
statement below holds for any such matcher. -/
def validateCommand (cfg : ExecutorConfig) (dangerous : String → Bool)
    (command : String) : Except ExecError Unit :=
  if !cfg.enableCommandValidation then
    .ok ()
  else if command = "" then
    .error (.validationError "Command is required and must be a string")
  else
    let trimmedCommand := jsTrim command
    if trimmedCommand.length = 0 then
      .error (.validationError "Command cannot be empty")
    else if trimmedCommand.length > 10000 then
      .error (.validationError "Command exceeds maximum length of 10000 characters")
    else
      match cfg.commandBlacklist.find?
          (fun b => jsStartsWith (jsToLower trimmedCommand) (jsToLower b)) with
      | some blacklisted =>
        .error (.securityError ("Command " ++ String.singleton squote ++ blacklisted
          ++ String.singleton squote ++ " is blacklisted"))
      | none =>
        if dangerous trimmedCommand then
          .error (.securityError "Command contains potentially dangerous pattern. If this is intentional, set ENABLE_COMMAND_VALIDATION=false")
        else
          .ok ()

/-- Outcome of `fs.statSync` on a path, as seen by `validateWorkingDirectory`. -/
inductive FsStat where
  | dir
  | file
  | enoent
  | eacces
deriving DecidableEq, Repr

/-- `validateWorkingDirectory` of `executor.ts`, with the file system
passed as the oracle `stat`. -/
def validateWorkingDirectory (cfg : ExecutorConfig) (stat : String → FsStat)
    (directory : String) (isRemote : Bool) : Except ExecError Unit :=
  if directory = "" then
    .error (.validationError "Working directory must be a non-empty string")
  else
    match cfg.allowedWorkingDirectories with
    | some allowed =>
      if !(allowed.any (fun a => jsStartsWith directory a)) then
        .error (.securityError ("Working directory " ++ String.singleton squote
          ++ directory ++ String.singleton squote
          ++ " is not in the allowed directories list"))
      else if isRemote then .ok ()
      else
        match stat directory with
        | .dir => .ok ()
        | .file => .error (.validationError ("Path " ++ String.singleton squote
            ++ directory ++ String.singleton squote ++ " is not a directory"))
        | .enoent => .error (.validationError ("Working directory "
            ++ String.singleton squote ++ directory ++ String.singleton squote
            ++ " does not exist"))
        | .eacces => .error (.validationError ("No permission to access working directory "
            ++ String.singleton squote ++ directory ++ String.singleton squote))
    | none =>
      if isRemote then .ok ()
      else
        match stat directory with
        | .dir => .ok ()
        | .file => .error (.validationError ("Path " ++ String.singleton squote
            ++ directory ++ String.singleton squote ++ " is not a directory"))
        | .enoent => .error (.validationError ("Working directory "
            ++ String.singleton squote ++ directory ++ String.singleton squote
            ++ " does not exist"))
        | .eacces => .error (.validationError ("No permission to access working directory "
            ++ String.singleton squote ++ directory ++ String.singleton squote))

/-- First character class of the username pattern `^[a-zA-Z0-9_]`. -/
def isUserFirstChar (c : Char) : Bool :=
  c.isAlpha || c.isDigit || c = Char.ofNat 95

/-- Tail character class `[a-zA-Z0-9_.-]`. -/
def isUserRestChar (c : Char) : Bool :=
  c.isAlpha || c.isDigit || c = Char.ofNat 95 || c = Char.ofNat 46 || c = Char.ofNat 45

/-- The username format test `/^[a-zA-Z0-9_][a-zA-Z0-9_.-]{0,31}$/.test(username)`. -/
def validUsername (u : String) : Bool :=
  match u.data with
  | [] => false
  | c :: rest => isUserFirstChar c && rest.length ≤ 31 && rest.all isUserRestChar

/-! ### Limits, truncation, keys -/

/-- `checkSessionLimit` of `executor.ts`. -/
def checkSessionLimit (cfg : ExecutorConfig) (store : SessionStore) :
    Except ExecError Unit :=
  if store.length ≥ cfg.maxConcurrentSessions then
    .error (.resourceLimitError ("Maximum concurrent sessions limit reached ("
      ++ toString cfg.maxConcurrentSessions
      ++ "). Close existing sessions or increase MAX_CONCURRENT_SESSIONS."))
  else
    .ok ()

/-- `truncateOutput` of `executor.ts` (the `label` argument only feeds the log). -/
def truncateOutput (cfg : ExecutorConfig) (output : String) : String :=
  if output.length > cfg.maxOutputSize then
    let truncated := jsTake output cfg.maxOutputSize
    let truncatedBytes := output.length - cfg.maxOutputSize
    truncated ++ "\n\n[OUTPUT TRUNCATED: " ++ toString truncatedBytes
      ++ " bytes removed. Set MAX_OUTPUT_SIZE to increase limit.]"
  else
    output

/-- The post-execution application of `truncateOutput` to both channels
(`result.stdout = this.truncateOutput(result.stdout, 'stdout')` and the
same for stderr). -/
def governResult (cfg : ExecutorConfig) (r : ExecResult) : ExecResult :=
  { r with stdout := truncateOutput cfg r.stdout, stderr := truncateOutput cfg r.stderr }

/-- Truthiness of an optional JavaScript string (`undefined` and `""` are falsy). -/
def strTruthy : Option String → Bool
  | none => false
  | some s => s ≠ ""

/-- `getSessionKey` : the template literal `${host || 'local'}-${sessionName}`. -/
def getSessionKey (host : Option String) (sessionName : String) : String :=
  (if strTruthy host then host.getD "" else "local") ++ "-" ++ sessionName

/-! ### Connection retry (`connectWithRetry` / `establishConnection`)

A single connection attempt is a value of `Except ExecError Unit`
supplied per attempt index; the retry loop's observable behaviour is the
number of attempts made, the backoff delays slept between them, and the
final outcome. -/

/-- `Math.min(1000 * Math.pow(2, retryCount - 1), 10000)`. -/
def retryDelay (retryCount : Nat) : Nat :=
  min (1000 * 2 ^ (retryCount - 1)) 10000

/-- Observable trace of one `connectWithRetry` call. -/
structure RetryTrace where
  attemptsMade : Nat
  delays : List Nat
  outcome : Except ExecError Unit
deriving Repr

/-- The error built after the final failed attempt. -/
def finalConnectError (host : String) (maxRetries : Nat) (e : ExecError) : ExecError :=
  .sshConnectionError ("Failed to connect to " ++ host ++ " after "
    ++ toString maxRetries ++ " attempts. Last error: " ++ e.message)
    (some e.message)

/-- The `while (retryCount < maxRetries)` loop of `connectWithRetry`.
When the loop guard fails without an attempt having thrown, the
TypeScript function falls through and the promise resolves. -/
def connectLoop (host : String) (attempt : Nat → Except ExecError Unit)
    (maxRetries : Nat) (retryCount : Nat) : RetryTrace :=
  if _h : retryCount < maxRetries then
    match attempt retryCount with
    | .ok _ => ⟨1, [], .ok ()⟩
    | .error e =>
      if retryCount + 1 ≥ maxRetries then
        ⟨1, [], .error (finalConnectError host maxRetries e)⟩
      else
        let rest := connectLoop host attempt maxRetries (retryCount + 1)
        ⟨rest.attemptsMade + 1, retryDelay (retryCount + 1) :: rest.delays, rest.outcome⟩
  else
    ⟨0, [], .ok ()⟩
termination_by maxRetries - retryCount
decreasing_by omega

/-- `connectWithRetry` of `executor.ts`. -/
def connectWithRetry (host : String) (attempt : Nat → Except ExecError Unit)
    (maxRetries : Nat) : RetryTrace :=
  connectLoop host attempt maxRetries 0

/-- `establishConnection`, reduced to its observable precondition: the
private key file must exist before any transport work starts; the
transport-level outcome of the attempt (handshake, shell open) is the
oracle `transport`. -/
def establishConnection (keyExistsOnDisk : Bool) (privateKeyPath : String)
    (transport : Except ExecError Unit) : Except ExecError Unit :=
  if !keyExistsOnDisk then
    .error (.sshConnectionError ("SSH key not found at " ++ privateKeyPath
      ++ ". Please ensure SSH key-based authentication is set up or set SSH_KEY_PATH environment variable.")
      none)
  else
    transport

/-! ### Local execution engine (`executeLocally`)

The two regular expressions guarding `export` interception are
translated character-for-character, including the one backtracking case
of `\s+` against the name group `[^=;|&]+` (the name group can absorb a
space given back by `\s+` when the character after the whitespace run is
`=` and the run is at least two long). -/

/-- The name class `[^=;|&]`. -/
def isNameChar (c : Char) : Bool :=
  decide (c ≠ Char.ofNat 61 ∧ c ≠ Char.ofNat 59 ∧ c ≠ Char.ofNat 124 ∧ c ≠ Char.ofNat 38)

/-- The value class `[^;|&]`. -/
def isValueChar (c : Char) : Bool :=
  decide (c ≠ Char.ofNat 59 ∧ c ≠ Char.ofNat 124 ∧ c ≠ Char.ofNat 38)

/-- The shared prefix `^\s*export\s+([^=;|&]+)=` of both export regular
expressions, returning the name group, the maximal value run `[^;|&]*`
and the remainder of the input after that run. -/
def exportParsePrefixCore (cs : List Char) : Option (List Char × List Char × List Char) :=
  let s1 := cs.dropWhile isJsSpace
  if s1.take 6 = "export".data then
    let s2 := s1.drop 6
    let spaces := s2.takeWhile isJsSpace
    let body := s2.dropWhile isJsSpace
    if spaces.isEmpty then
      none
    else
      let name := body.takeWhile isNameChar
      let afterName := body.dropWhile isNameChar
      if !name.isEmpty then
        match afterName with
        | '=' :: s5 => some (name, s5.takeWhile isValueChar, s5.dropWhile isValueChar)
        | _ => none
      else
        match body with
        | '=' :: s5 =>
          if 2 ≤ spaces.length then
            some ([' '], s5.takeWhile isValueChar, s5.dropWhile isValueChar)
          else
            none
        | _ => none
  else
    none

/-- String-level wrapper of `exportParsePrefixCore`. -/
def exportParse (command : String) : Option (String × String × String) :=
  (exportParsePrefixCore command.data).map
    (fun nvr => (String.mk nvr.1, String.mk nvr.2.1, String.mk nvr.2.2))

/-- `command.match(/^\s*export\s+([^=;|&]+)=([^;|&]*)(?:\s*$|\s*;|\s*&&|\s*\|\|)/)`
of `executeLocally`, yielding the two capture groups on success.  After
the maximal value run, the alternation succeeds exactly on end of input,
`;`, `&&` or `||` (the `\s*` parts can never consume anything because
whitespace belongs to the value class). -/
def exportMatch (command : String) : Option (String × String) :=
  match exportParse command with
  | some (name, value, rest) =>
    if rest = "" || jsStartsWith rest ";" || jsStartsWith rest "&&" || jsStartsWith rest "||" then
      some (name, value)
    else
      none
  | none => none

/-- `/^\s*export\s+[^=;|&]+=[^;|&]*\s*[;|&]/.test(command)` : the
chained-command detector, requiring one of `;`, `|`, `&` right after the
value run. -/
def hasChainedCommands (command : String) : Bool :=
  match exportParse command with
  | some (_, _, rest) =>
    match rest.data with
    | c :: _ => c = Char.ofNat 59 || c = Char.ofNat 124 || c = Char.ofNat 38
    | [] => false
  | none => false

/-- The interception decision of `executeLocally`: the export pattern
matched and no chained command was detected. -/
def isIntercepted (command : String) : Bool :=
  (exportMatch command).isSome && !hasChainedCommands command

/-- `removeMatchingQuotes` of `executor.ts`. -/
def removeMatchingQuotes (value : String) : String :=
  if value.length < 2 then
    value
  else
    let firstChar := jsFront value
    let lastChar := jsBack value
    if (firstChar = dquote && lastChar = dquote) || (firstChar = squote && lastChar = squote) then
      let middle := jsDropRight (jsDrop value 1) 1
      if !(jsContainsChar middle firstChar) then middle else value
    else
      value

/-- Modelled from the spec for comparison with `removeMatchingQuotes`:
the surrounding quotes form "a balanced pair (`"x"` or `'x'`) and the
inner content contains no further occurrence of that same quote
character". -/
def balancedQuotePair (value : String) : Bool :=
  2 ≤ value.length
    && (jsFront value = dquote || jsFront value = squote)
    && jsBack value = jsFront value
    && !(jsContainsChar (jsDropRight (jsDrop value 1) 1) (jsFront value))

/-- The error object `child_process.exec` may pass to its callback. -/
structure SpawnError where
  killed : Bool
  codeNum : Option Int
  codeTimedOut : Bool
deriving DecidableEq, Repr

/-- Outcome of spawning a local child process: either the exec callback
fired (with its error/stdout/stderr arguments) or the process emitted an
`error` event. -/
inductive SpawnOutcome where
  | callback (err : Option SpawnError) (stdout stderr : String)
  | procError (msg : String)
deriving DecidableEq, Repr

/-- The body of the `exec` callback in `executeLocally`: exit-code
normalisation and the timeout (`killed` / `ETIMEDOUT`) rewrite to 124. -/
def localExecCallback (timeout : Nat) (err : Option SpawnError)
    (stdout stderr : String) : ExecResult :=
  match err with
  | none => ⟨stdout, stderr, 0⟩
  | some e =>
    let exitCode : Int := match e.codeNum with | some n => n | none => 1
    if e.killed || e.codeTimedOut then
      ⟨stdout, stderr ++ "\nCommand timed out after " ++ toString timeout ++ "ms", 124⟩
    else
      ⟨stdout, stderr, exitCode⟩

/-- Settling of the promise around `exec`: the callback resolves, the
process `error` event rejects with `CommandExecutionError`. -/
def spawnDispatch (timeout : Nat) (o : SpawnOutcome) : Except ExecError ExecResult :=
  match o with
  | .callback err stdout stderr => .ok (localExecCallback timeout err stdout stderr)
  | .procError msg => .error (.commandExecutionError ("Process error: " ++ msg) none none)

/-- `executeLocally` of `executor.ts`.  The child-process spawn is the
oracle `spawn`, applied to the command, the merged environment
(`{...process.env, ...sessionData.env}`) and the session working
directory; `processCwd`/`processEnv` stand for `process.cwd()` and
`process.env`. -/
def executeLocally (store : SessionStore) (sessionKey command : String)
    (env : List (String × String)) (workingDirectory : Option String)
    (timeout : Nat) (processCwd : String) (processEnv : List (String × String))
    (spawn : String → List (String × String) → String → SpawnOutcome) :
    Except ExecError ExecResult × SessionStore :=
  let sessionData : SessionData :=
    match storeGet store sessionKey with
    | none =>
      { env := env
        workingDirectory := if strTruthy workingDirectory then workingDirectory.getD "" else processCwd }
    | some sd =>
      { sd with
        env := envMerge sd.env env
        workingDirectory := if strTruthy workingDirectory then workingDirectory.getD "" else sd.workingDirectory }
  let store1 := storeSet store sessionKey sessionData
  match exportMatch command with
  | some (varName, varValue) =>
    if hasChainedCommands command then
      (spawnDispatch timeout
        (spawn command (envMerge processEnv sessionData.env) sessionData.workingDirectory),
       store1)
    else
      let cleanValue := removeMatchingQuotes (jsTrim varValue)
      let sessionData2 := { sessionData with env := envSet sessionData.env (jsTrim varName) cleanValue }
      (.ok ⟨"Environment variable " ++ jsTrim varName ++ " set to " ++ cleanValue, "", 0⟩,
       storeSet store1 sessionKey sessionData2)
  | none =>
    (spawnDispatch timeout
      (spawn command (envMerge processEnv sessionData.env) sessionData.workingDirectory),
     store1)

/-! ### Interactive-shell strategy (`executeWithShell`)

The shell stream is an ordered list of events; the promise settles on
the first event that resolves or rejects it. -/

/-- Events observed by the handlers installed in `executeWithShell`. -/
inductive ShellEvent where
  | data (s : String)
  | errEvent (msg : String)
  | timerFire
deriving DecidableEq, Repr

/-- Value of an ASCII digit run. -/
def digitsVal (ds : List Char) : Nat :=
  ds.foldl (fun acc c => acc * 10 + (c.toNat - 48)) 0

/-- `line.match(/Exit code: (\d+)/)` : first position where the literal
`Exit code: ` is followed by at least one digit; the maximal digit run
there is the capture. -/
def scanExitCode : List Char → Option Nat
  | [] => none
  | cs@(_ :: tail) =>
    if cs.take 11 = "Exit code: ".data then
      let ds := (cs.drop 11).takeWhile Char.isDigit
      if ds.isEmpty then scanExitCode tail else some (digitsVal ds)
    else
      scanExitCode tail

/-- The line scan of the buffered shell output performed once the end
marker has been seen (the `for (const line of lines)` loop). -/
def extractLines (marker fullCommand command : String) :
    List String → Bool → Int → String → String × Int
  | [], _, exitCode, acc => (acc, exitCode)
  | line :: rest, foundCommand, exitCode, acc =>
    if strContains line "echo \"Exit code: $?\"" then
      let exitCode' : Int := match scanExitCode line.data with
        | some n => (n : Int)
        | none => exitCode
      extractLines marker fullCommand command rest foundCommand exitCode' acc
    else if foundCommand then
      if strContains line marker then
        (acc, exitCode)
      else
        extractLines marker fullCommand command rest foundCommand exitCode (acc ++ line ++ "\n")
    else if strContains line fullCommand || strContains line command then
      extractLines marker fullCommand command rest true exitCode acc
    else
      extractLines marker fullCommand command rest foundCommand exitCode acc

/-- The result assembled when the marker is detected in the stream. -/
def extractShellOutput (marker fullCommand command stdoutBuf stderrBuf : String) :
    ExecResult :=
  let (commandOutput, exitCode) :=
    extractLines marker fullCommand command (jsSplitOnChar (Char.ofNat 10) stdoutBuf) false 0 ""
  ⟨jsTrim commandOutput, jsTrim stderrBuf, exitCode⟩

/-- The event loop of `executeWithShell`: buffer data until a chunk
contains the marker, reject on a stream error, and resolve with exit
code 124 and a timeout note when the side timer fires first.  `none`
means the promise never settled on the given events. -/
def runShellEvents (marker fullCommand command : String) :
    List ShellEvent → String → String → Option (Except ExecError ExecResult)
  | [], _, _ => none
  | e :: rest, stdoutBuf, stderrBuf =>
    match e with
    | .data s =>
      if strContains s marker then
        some (.ok (extractShellOutput marker fullCommand command stdoutBuf stderrBuf))
      else
        runShellEvents marker fullCommand command rest (stdoutBuf ++ s) stderrBuf
    | .errEvent msg =>
      some (.error (.commandExecutionError msg (some stdoutBuf) (some (stderrBuf ++ msg))))
    | .timerFire =>
      some (.ok ⟨stdoutBuf, stderrBuf ++ "Command execution timed out", 124⟩)

/-- The `export K="escaped-V"` prefix joined with `&&`. -/
def envSetup (env : List (String × String)) : String :=
  joinSep " && "
    (env.map (fun kv => "export " ++ kv.1 ++ "=\"" ++ escapeDquotes kv.2 ++ "\""))

/-- `envSetup ? envSetup + ' && ' + command : command`. -/
def fullCommandOf (env : List (String × String)) (command : String) : String :=
  let es := envSetup env
  if es = "" then command else es ++ " && " ++ command

/-- `executeWithShell` of `executor.ts`, as a function of the observed
stream events. -/
def executeWithShell (marker command : String) (env : List (String × String))
    (events : List ShellEvent) : Option (Except ExecError ExecResult) :=
  runShellEvents marker (fullCommandOf env command) command events "" ""

/-! ### `executeCommand` -/

/-- The options object of `executeCommand`, with its defaults. -/
structure ExecOptions where
  host : Option String := none
  username : Option String := none
  session : String := "default"
  env : List (String × String) := []
  workingDirectory : Option String := none
  timeout : Nat := 30000
deriving Repr

/-- The working-directory validation step of `executeCommand`
(`if (workingDirectory) { await this.validateWorkingDirectory(...) }`). -/
def validateWorkingDirectoryOpt (cfg : ExecutorConfig) (stat : String → FsStat)
    (opts : ExecOptions) : Except ExecError Unit :=
  if strTruthy opts.workingDirectory then
    validateWorkingDirectory cfg stat (opts.workingDirectory.getD "") (strTruthy opts.host)
  else
    .ok ()

/-- The execution route chosen by `executeCommand` after validation. -/
inductive ExecRoute where
  | sshRoute (host username : String)
  | localRoute
deriving DecidableEq, Repr

/-- The validation pipeline of `executeCommand`, in source order: session
name, command, optional working directory, then the host/username gate. -/
def executeCommandGate (cfg : ExecutorConfig) (dangerous : String → Bool)
    (stat : String → FsStat) (command : String) (opts : ExecOptions) :
    Except ExecError ExecRoute :=
  match validateSessionName opts.session with
  | .error e => .error e
  | .ok _ =>
    match validateCommand cfg dangerous command with
    | .error e => .error e
    | .ok _ =>
      match validateWorkingDirectoryOpt cfg stat opts with
      | .error e => .error e
      | .ok _ =>
        if strTruthy opts.host then
          if !strTruthy opts.username then
            .error (.commandExecutionError "Username is required when using SSH" none none)
          else if !validUsername (opts.username.getD "") then
            .error (.validationError "Invalid username format")
          else
            .ok (.sshRoute (opts.host.getD "") (opts.username.getD ""))
        else
          .ok .localRoute

/-- The local branch of `executeCommand`: the concurrency ceiling is
checked only for a brand-new session key, then `executeLocally` runs and
both output channels pass through `truncateOutput`. -/
def localRoutePath (cfg : ExecutorConfig) (store : SessionStore)
    (sessionKey command : String) (env : List (String × String))
    (workingDirectory : Option String) (timeout : Nat)
    (processCwd : String) (processEnv : List (String × String))
    (spawn : String → List (String × String) → String → SpawnOutcome) :
    Except ExecError ExecResult × SessionStore :=
  let gate : Except ExecError Unit :=
    if storeHas store sessionKey then .ok () else checkSessionLimit cfg store
  match gate with
  | .error e => (.error e, store)
  | .ok _ =>
    let out := executeLocally store sessionKey command env workingDirectory timeout
      processCwd processEnv spawn
    (out.1.map (governResult cfg), out.2)

/-- `executeCommand` of `executor.ts`.  The remote branch (a live ssh
connection plus one of the two remote strategies) is the oracle
`sshExec`; every validation, the session-key computation and the whole
local branch are modelled in full. -/
def executeCommand (cfg : ExecutorConfig) (dangerous : String → Bool)
    (stat : String → FsStat) (store : SessionStore) (command : String)
    (opts : ExecOptions) (processCwd : String)
    (processEnv : List (String × String))
    (spawn : String → List (String × String) → String → SpawnOutcome)
    (sshExec : String → String → SessionStore → Except ExecError ExecResult × SessionStore) :
    Except ExecError ExecResult × SessionStore :=
  match executeCommandGate cfg dangerous stat command opts with
  | .error e => (.error e, store)
  | .ok (.sshRoute h u) => sshExec h u store
  | .ok .localRoute =>
    localRoutePath cfg store (getSessionKey opts.host opts.session) command
      opts.env opts.workingDirectory opts.timeout processCwd processEnv spawn

/-! ### Helper lemmas about the store, overlays and substring search -/

theorem storeGet_storeSet_self (s : SessionStore) (k : String) (v : SessionData) :
    storeGet (storeSet s k v) k = some v := by
  induction s with
  | nil => simp [storeSet, storeGet]
  | cons kv rest ih =>
    by_cases h : kv.1 = k
    · simp [storeSet, h, storeGet]
    · simpa [storeSet, h, storeGet] using ih

theorem storeHas_storeSet (s : SessionStore) (k v k2) :
    storeHas (storeSet s k v) k2 = (decide (k2 = k) || storeHas s k2) := by
  induction s with
  | nil =>
    simp only [storeSet, storeHas, storeGet]
    by_cases h : k = k2
    · subst h; simp
    · have h2 : ¬ k2 = k := fun hh => h hh.symm
      simp [h, h2]
  | cons kv rest ih =>
    by_cases h : kv.1 = k
    · simp only [storeSet, if_pos h, storeHas, storeGet]
      by_cases h2 : k = k2
      · subst h2; simp
      · have h3 : ¬ kv.1 = k2 := h ▸ h2
        have h4 : ¬ k2 = k := fun hh => h2 hh.symm
        simp [h2, h3, h4]
    · simp only [storeSet, if_neg h, storeHas, storeGet]
      by_cases h2 : kv.1 = k2
      · simp [h2]
      · simp only [if_neg h2]
        exact ih

theorem length_storeSet (s : SessionStore) (k v) :
    (storeSet s k v).length = if storeHas s k then s.length else s.length + 1 := by
  induction s with
  | nil => simp [storeSet, storeHas, storeGet]
  | cons kv rest ih =>
    by_cases h : kv.1 = k
    · simp [storeSet, if_pos h, storeHas, storeGet, h]
    · simp only [storeSet, if_neg h, List.length_cons, ih, storeHas, storeGet]
      by_cases h2 : (storeGet rest k).isSome = true
      · simp [h, h2]
      · simp [h, h2]

theorem length_storeDelete (s : SessionStore) (k) (h : storeHas s k = true) :
    (storeDelete s k).length + 1 = s.length := by
  induction s with
  | nil => simp [storeHas, storeGet] at h
  | cons kv rest ih =>
    by_cases hk : kv.1 = k
    · simp [storeDelete, hk]
    · have h' : storeHas rest k = true := by
        simpa [storeHas, storeGet, hk] using h
      simpa [storeDelete, hk] using ih h'

theorem storeHas_storeDelete_of_not (s : SessionStore) (k k2)
    (h : storeHas s k2 = false) : storeHas (storeDelete s k) k2 = false := by
  induction s with
  | nil => simp [storeDelete, storeHas, storeGet]
  | cons kv rest ih =>
    by_cases hk : kv.1 = k
    · have h' : storeHas rest k2 = false := by
        rcases eq_or_ne kv.1 k2 with h2 | h2
        · simp [storeHas, storeGet, h2] at h
        · simpa [storeHas, storeGet, h2] using h
      simpa [storeDelete, hk] using h'
    · rcases eq_or_ne kv.1 k2 with h2 | h2
      · simp [storeHas, storeGet, h2] at h
      · have h' : storeHas rest k2 = false := by
          simpa [storeHas, storeGet, h2] using h
        simpa [storeDelete, hk, storeHas, storeGet, h2] using ih h'

theorem envGet_envSet_self (e : List (String × String)) (k v) :
    envGet (envSet e k v) k = some v := by
  induction e with
  | nil => simp [envSet, envGet]
  | cons kv rest ih =>
    by_cases h : kv.1 = k
    · simp [envSet, h, envGet]
    · simpa [envSet, h, envGet] using ih

theorem listStartsWith_append (l m p : List Char) (h : listStartsWith l p = true) :
    listStartsWith (l ++ m) p = true := by
  induction p generalizing l with
  | nil => simp [listStartsWith]
  | cons c cs ih =>
    cases l with
    | nil => simp [listStartsWith] at h
    | cons a as =>
      simp only [listStartsWith, Bool.and_eq_true, decide_eq_true_eq] at h
      simp only [List.cons_append, listStartsWith, Bool.and_eq_true, decide_eq_true_eq]
      exact ⟨h.1, ih as h.2⟩

theorem containsSub_pat_nil (l : List Char) : containsSub l [] = true := by
  cases l with
  | nil => simp [containsSub, List.isEmpty]
  | cons a as => simp [containsSub, listStartsWith]

theorem containsSub_append_left (a b pat : List Char) (h : containsSub a pat = true) :
    containsSub (a ++ b) pat = true := by
  induction a with
  | nil =>
    have : pat = [] := by
      cases pat with
      | nil => rfl
      | cons p ps => simp [containsSub, List.isEmpty] at h
    subst this
    exact containsSub_pat_nil b
  | cons c cs ih =>
    simp only [containsSub, Bool.or_eq_true] at h
    rcases h with h | h
    · simp only [List.cons_append, containsSub, Bool.or_eq_true]
      exact Or.inl (listStartsWith_append _ _ _ h)
    · simp only [List.cons_append, containsSub, Bool.or_eq_true]
      exact Or.inr (ih h)

theorem dropWhile_head_false {p : Char → Bool} :
    ∀ (l : List Char) (c : Char) (r : List Char), l.dropWhile p = c :: r → p c = false := by
  intro l
  induction l with
  | nil => intro c r h; simp [List.dropWhile] at h
  | cons a t ih =>
    intro c r h
    by_cases hp : p a
    · rw [List.dropWhile_cons_of_pos hp] at h
      exact ih c r h
    · rw [List.dropWhile_cons_of_neg hp] at h
      injection h with h1 _
      subst h1
      simpa using hp

/-! ### Lemmas about the retry loop -/

theorem connectLoop_allFail (host : String) (attempt : Nat → Except ExecError Unit)
    (f : Nat → ExecError) (hfail : ∀ n, attempt n = .error (f n)) :
    ∀ (d maxRetries rc : Nat), maxRetries = rc + d → 0 < d →
      connectLoop host attempt maxRetries rc =
        ⟨d, (List.range' (rc + 1) (d - 1)).map retryDelay,
         .error (finalConnectError host maxRetries (f (maxRetries - 1)))⟩ := by
  intro d
  induction d with
  | zero => intro maxRetries rc _ h0; exact absurd h0 (by omega)
  | succ d ih =>
    intro maxRetries rc hm _
    have hlt : rc < maxRetries := by omega
    rw [connectLoop, dif_pos hlt, hfail rc]
    cases d with
    | zero =>
      have hge : rc + 1 ≥ maxRetries := by omega
      have hr : maxRetries - 1 = rc := by omega
      simp [hge, hr]
    | succ d2 =>
      have hge : ¬ (rc + 1 ≥ maxRetries) := by omega
      simp [hge, ih maxRetries (rc + 1) (by omega) (by omega), List.range']

theorem connectLoop_success (host : String) (attempt : Nat → Except ExecError Unit)
    (g : Nat → ExecError) (j maxRetries : Nat)
    (hbefore : ∀ n, n < j → attempt n = .error (g n)) (hsucc : attempt j = .ok ())
    (hjm : j < maxRetries) :
    ∀ (d rc : Nat), j = rc + d →
      connectLoop host attempt maxRetries rc =
        ⟨d + 1, (List.range' (rc + 1) d).map retryDelay, .ok ()⟩ := by
  intro d
  induction d with
  | zero =>
    intro rc h
    have hrc : rc = j := by omega
    subst hrc
    have hlt : rc < maxRetries := hjm
    rw [connectLoop, dif_pos hlt, hsucc]
    simp
  | succ d ih =>
    intro rc h
    have hlt : rc < maxRetries := by omega
    rw [connectLoop, dif_pos hlt, hbefore rc (by omega)]
    have hge : ¬ (rc + 1 ≥ maxRetries) := by omega
    simp [hge, ih (rc + 1) (by omega), List.range']

theorem range'_map_retryDelay : ∀ (m s : Nat),
    (List.range' (s + 1) m).map retryDelay
      = (List.range' s m).map (fun n => min (1000 * 2 ^ n) 10000) := by
  intro m
  induction m with
  | zero => intro s; simp
  | succ m ih =>
    intro s
    simp [List.range', List.map_cons, ih (s + 1), retryDelay]

/-! ### Lemmas about the export parse -/

theorem exportParsePrefixCore_rest (cs : List Char) (n v : List Char) (c : Char)
    (r : List Char) (h : exportParsePrefixCore cs = some (n, v, c :: r)) :
    isValueChar c = false := by
  simp only [exportParsePrefixCore] at h
  split at h
  · split at h
    · exact Option.noConfusion h
    · split at h
      · split at h
        · injection h with h5
          have h4 := congrArg (fun p => p.2.2) h5
          simp only at h4
          exact dropWhile_head_false _ _ _ h4
        · exact Option.noConfusion h
      · split at h
        · split at h
          · injection h with h5
            have h4 := congrArg (fun p => p.2.2) h5
            simp only at h4
            exact dropWhile_head_false _ _ _ h4
          · exact Option.noConfusion h
        · exact Option.noConfusion h
  · exact Option.noConfusion h

/-! ### Lemmas about the local engine's store updates -/

theorem executeLocally_snd_has (store : SessionStore) (sessionKey command : String)
    (env wd t cwd penv spawn) (k2 : String) :
    storeHas (executeLocally store sessionKey command env wd t cwd penv spawn).2 k2
      = (decide (k2 = sessionKey) || storeHas store k2) := by
  simp only [executeLocally]
  cases hm : exportMatch command with
  | none => simp [storeHas_storeSet]
  | some nv =>
    obtain ⟨n, v⟩ := nv
    by_cases hc : hasChainedCommands command
    · simp [hc, storeHas_storeSet]
    · simp [hc, storeHas_storeSet]

theorem executeLocally_snd_length (store : SessionStore) (sessionKey command : String)
    (env wd t cwd penv spawn) :
    (executeLocally store sessionKey command env wd t cwd penv spawn).2.length
      = if storeHas store sessionKey then store.length else store.length + 1 := by
  simp only [executeLocally]
  cases hm : exportMatch command with
  | none => simp [length_storeSet]
  | some nv =>
    obtain ⟨n, v⟩ := nv
    by_cases hc : hasChainedCommands command
    · simp [hc, length_storeSet]
    · simp [hc, length_storeSet, storeHas_storeSet]

/-! ### Lemma about the shell event loop -/

theorem runShellEvents_timerFire (marker fc cmd : String) :
    ∀ (chunks : List String) (buf err : String),
      (∀ c ∈ chunks, strContains c marker = false) →
      runShellEvents marker fc cmd (chunks.map ShellEvent.data ++ [ShellEvent.timerFire]) buf err
        = some (.ok ⟨chunks.foldl (fun a c => a ++ c) buf,
            err ++ "Command execution timed out", 124⟩) := by
  intro chunks
  induction chunks with
  | nil => intro buf err _; simp [runShellEvents]
  | cons c t ih =>
    intro buf err h
    have hc : strContains c marker = false := h c (by simp)
    simp only [List.map_cons, List.cons_append, runShellEvents, hc]
    simp only [Bool.false_eq_true, if_false]
    exact ih (buf ++ c) err (fun x hx => h x (by simp [hx]))

/-! ## Claim theorems -/

/-- C1, counterexample: with command validation disabled, the empty
command is accepted by `validateCommand` instead of failing with
`ValidationError`, so the empty/over-length checks are not independent of
the validation-enabled flag. -/
theorem validateCommand_disabled_accepts_empty :
    validateCommand ⟨1200000, 3, 30000, 10, 5242880, false, [], none⟩
      (fun _ => false) "" = .ok () := rfl

/-- C1 (amended): the empty-after-trim and over-length checks of
`validateCommand` raise `ValidationError`, and they sit in front of the
blacklist/dangerous-pattern `SecurityError` checks, but only when command
validation is enabled; when the flag is disabled every check, including
these, is skipped and any command is accepted. -/
theorem validateCommand_checks_gated_by_flag (cfg : ExecutorConfig)
    (dangerous : String → Bool) (command : String) :
    (cfg.enableCommandValidation = false →
      validateCommand cfg dangerous command = .ok ())
    ∧ (cfg.enableCommandValidation = true → (jsTrim command).length = 0 →
      ∃ msg, validateCommand cfg dangerous command = .error (.validationError msg))
    ∧ (cfg.enableCommandValidation = true → (jsTrim command).length > 10000 →
      validateCommand cfg dangerous command
        = .error (.validationError "Command exceeds maximum length of 10000 characters")) := by
  refine ⟨?_, ?_, ?_⟩
  · intro h
    simp [validateCommand, h]
  · intro h he
    by_cases hc : command = ""
    · exact ⟨"Command is required and must be a string", by simp [validateCommand, h, hc]⟩
    · exact ⟨"Command cannot be empty", by simp [validateCommand, h, hc, he]⟩
  · intro h hl
    have hc : command ≠ "" := by
      intro hc
      subst hc
      exact absurd hl (by decide)
    have hne : ¬ (jsTrim command).length = 0 := by omega
    simp [validateCommand, h, hc, hne, hl]

/-- Witness for C1's amended theorem at concrete inputs: a disabled
config accepting a plain command, an enabled config rejecting a
whitespace-only command, and an enabled config rejecting a command of
10001 non-blank characters. -/
theorem validateCommand_checks_gated_by_flag_witness :
    (validateCommand ⟨1200000, 3, 30000, 10, 5242880, false, [], none⟩
      (fun _ => false) "ls" = .ok ())
    ∧ (∃ msg, validateCommand ⟨1200000, 3, 30000, 10, 5242880, true, [], none⟩
      (fun _ => false) " " = .error (.validationError msg))
    ∧ (validateCommand ⟨1200000, 3, 30000, 10, 5242880, true, [], none⟩
      (fun _ => false) (String.mk (List.replicate 10001 (Char.ofNat 97)))
        = .error (.validationError "Command exceeds maximum length of 10000 characters")) := by
  have hrep : ∀ n : Nat, (List.replicate n (Char.ofNat 97)).dropWhile isJsSpace
      = List.replicate n (Char.ofNat 97) := by
    intro n
    cases n with
    | zero => simp
    | succ m => rw [List.replicate_succ, List.dropWhile_cons_of_neg (by decide)]
  have hlen : (jsTrim (String.mk (List.replicate 10001 (Char.ofNat 97)))).length > 10000 := by
    have htrim : jsTrim (String.mk (List.replicate 10001 (Char.ofNat 97)))
        = String.mk (List.replicate 10001 (Char.ofNat 97)) := by
      show String.mk ((((List.replicate 10001 (Char.ofNat 97)).dropWhile
        isJsSpace).reverse.dropWhile isJsSpace).reverse) = _
      rw [hrep, List.reverse_replicate, hrep, List.reverse_replicate]
    rw [htrim]
    show (List.replicate 10001 (Char.ofNat 97)).length > 10000
    rw [List.length_replicate]
    omega
  exact ⟨(validateCommand_checks_gated_by_flag _ (fun _ => false) "ls").1 rfl,
    (validateCommand_checks_gated_by_flag _ (fun _ => false) " ").2.1 rfl (by decide),
    (validateCommand_checks_gated_by_flag _ (fun _ => false) _).2.2 rfl hlen⟩

/-- C9: `truncateOutput` is the identity on every string of length at
most the configured cap; on a string of length exactly cap + 1 it returns
the first cap characters followed by the marker naming the removed byte
count and the `MAX_OUTPUT_SIZE` setting; and the post-execution governor
applies it to stdout and stderr independently. -/
theorem truncateOutput_cap_behaviour (cfg : ExecutorConfig) (s : String)
    (r : ExecResult) :
    (s.length ≤ cfg.maxOutputSize → truncateOutput cfg s = s)
    ∧ (s.length = cfg.maxOutputSize + 1 → truncateOutput cfg s
        = jsTake s cfg.maxOutputSize
          ++ "\n\n[OUTPUT TRUNCATED: 1 bytes removed. Set MAX_OUTPUT_SIZE to increase limit.]")
    ∧ governResult cfg r
        = ⟨truncateOutput cfg r.stdout, truncateOutput cfg r.stderr, r.exitCode⟩ := by
  refine ⟨?_, ?_, rfl⟩
  · intro h
    have : ¬ s.length > cfg.maxOutputSize := by omega
    simp [truncateOutput, this]
  · intro h
    have h1 : s.length > cfg.maxOutputSize := by omega
    have h2 : s.length - cfg.maxOutputSize = 1 := by omega
    simp only [truncateOutput, h1, if_true, h2]
    rw [String.append_assoc, String.append_assoc]
    rfl

/-- Witness for C9 at a concrete five-byte cap: a string of length 5 is
returned unchanged and a string of length 6 is cut to its first 5
characters plus the marker. -/
theorem truncateOutput_cap_behaviour_witness :
    (truncateOutput ⟨0, 0, 0, 0, 5, true, [], none⟩ "abcde" = "abcde")
    ∧ (truncateOutput ⟨0, 0, 0, 0, 5, true, [], none⟩ "abcdef"
        = jsTake "abcdef" 5
          ++ "\n\n[OUTPUT TRUNCATED: 1 bytes removed. Set MAX_OUTPUT_SIZE to increase limit.]")
    ∧ governResult ⟨0, 0, 0, 0, 5, true, [], none⟩ ⟨"abcdef", "xyz", 0⟩
        = ⟨truncateOutput ⟨0, 0, 0, 0, 5, true, [], none⟩ "abcdef",
           truncateOutput ⟨0, 0, 0, 0, 5, true, [], none⟩ "xyz", 0⟩ :=
  ⟨(truncateOutput_cap_behaviour _ "abcde" ⟨"", "", 0⟩).1 (by decide),
   (truncateOutput_cap_behaviour _ "abcdef" ⟨"", "", 0⟩).2.1 (by decide),
   (truncateOutput_cap_behaviour _ "" ⟨"abcdef", "xyz", 0⟩).2.2⟩

/-- C10: the session-key mapping `${host || 'local'}-${sessionName}` is
not injective: the pairs (host `a`, session `b-c`) and (host `a-b`,
session `c`) collide, a remote host literally named `local` collides with
the local pseudo-host, and colliding identities address the same store
entry. -/
theorem getSessionKey_not_injective :
    getSessionKey (some "a") "b-c" = getSessionKey (some "a-b") "c"
    ∧ ((some "a" : Option String), "b-c") ≠ ((some "a-b" : Option String), "c")
    ∧ getSessionKey (some "local") "s" = getSessionKey none "s"
    ∧ (some "local" : Option String) ≠ (none : Option String)
    ∧ ∀ (store : SessionStore) (sd : SessionData),
        storeGet (storeSet store (getSessionKey (some "a") "b-c") sd)
          (getSessionKey (some "a-b") "c") = some sd := by
  refine ⟨by decide, by decide, by decide, by decide, ?_⟩
  intro store sd
  have hk : getSessionKey (some "a-b") "c" = getSessionKey (some "a") "b-c" := by decide
  rw [hk]
  exact storeGet_storeSet_self store _ sd

/-- C2, counterexample: with the private key file missing every attempt
throws the key-not-found `SshConnectionError`, yet `connectWithRetry`
still performs all three attempts and sleeps the 1000 ms and 2000 ms
backoff delays, instead of surfacing the precondition failure without
retrying. -/
theorem missingKey_retried_counterexample :
    (connectWithRetry "h" (fun _ => establishConnection false "/k" (.ok ())) 3).attemptsMade = 3
    ∧ (connectWithRetry "h" (fun _ => establishConnection false "/k" (.ok ())) 3).delays
        = [1000, 2000] := by
  have h := connectLoop_allFail "h" (fun _ => establishConnection false "/k" (.ok ()))
    (fun _ => .sshConnectionError ("SSH key not found at /k. Please ensure SSH key-based authentication is set up or set SSH_KEY_PATH environment variable.") none)
    (fun _ => rfl) 3 3 0 rfl (by omega)
  exact ⟨by rw [connectWithRetry, h], by rw [connectWithRetry, h]; decide⟩

/-- C2 (amended): a missing private key file makes every single
`establishConnection` attempt fail up front with the key-not-found
`SshConnectionError`, but `connectWithRetry` treats this exactly like a
transport failure: it retries with the usual capped exponential backoff,
consumes all `maxRetries` attempts, and only then fails with the
wrapping `SshConnectionError`. -/
theorem missingKey_consumes_all_retries (host keyPath : String)
    (transport : Nat → Except ExecError Unit) (maxRetries : Nat)
    (hmax : 0 < maxRetries) :
    (∀ n, establishConnection false keyPath (transport n)
      = .error (.sshConnectionError ("SSH key not found at " ++ keyPath
          ++ ". Please ensure SSH key-based authentication is set up or set SSH_KEY_PATH environment variable.") none))
    ∧ connectWithRetry host (fun n => establishConnection false keyPath (transport n)) maxRetries
      = ⟨maxRetries,
         (List.range (maxRetries - 1)).map (fun n => min (1000 * 2 ^ n) 10000),
         .error (finalConnectError host maxRetries
           (.sshConnectionError ("SSH key not found at " ++ keyPath
             ++ ". Please ensure SSH key-based authentication is set up or set SSH_KEY_PATH environment variable.") none))⟩ := by
  refine ⟨fun n => rfl, ?_⟩
  rw [connectWithRetry,
    connectLoop_allFail host (fun n => establishConnection false keyPath (transport n))
      (fun _ => .sshConnectionError ("SSH key not found at " ++ keyPath
        ++ ". Please ensure SSH key-based authentication is set up or set SSH_KEY_PATH environment variable.") none)
      (fun _ => rfl) maxRetries maxRetries 0 (by omega) hmax]
  congr 1
  rw [range'_map_retryDelay, ← List.range_eq_range']

/-- Witness for C2's amended theorem: three attempts against a missing
key at `/k`, with the concrete delay list `[1000, 2000]`. -/
theorem missingKey_consumes_all_retries_witness :
    (0 : Nat) < 3
    ∧ ((∀ n : Nat, establishConnection false "/k" ((fun _ => Except.ok ()) n)
      = .error (.sshConnectionError ("SSH key not found at " ++ "/k"
          ++ ". Please ensure SSH key-based authentication is set up or set SSH_KEY_PATH environment variable.") none))
    ∧ connectWithRetry "h" (fun n => establishConnection false "/k" ((fun _ => Except.ok ()) n)) 3
      = ⟨3, (List.range (3 - 1)).map (fun n => min (1000 * 2 ^ n) 10000),
         .error (finalConnectError "h" 3
           (.sshConnectionError ("SSH key not found at " ++ "/k"
             ++ ". Please ensure SSH key-based authentication is set up or set SSH_KEY_PATH environment variable.") none))⟩)
    ∧ (List.range (3 - 1)).map (fun n => min (1000 * 2 ^ n) 10000) = [1000, 2000] :=
  ⟨by omega, missingKey_consumes_all_retries "h" "/k" (fun _ => Except.ok ()) 3 (by omega),
   by decide⟩

/-- C3: for a connection failing on every attempt, `connectWithRetry`
performs exactly `maxRetries` attempts, the delay slept after the n-th
failed attempt (n < maxRetries) is min(1000·2^(n−1), 10000) ms, and the
final outcome is an `SshConnectionError` carrying the last underlying
cause and the attempt count; an attempt that succeeds returns
immediately, with no attempts or delays beyond it. -/
theorem connectWithRetry_bound (host : String)
    (attempt attemptS : Nat → Except ExecError Unit) (f g : Nat → ExecError)
    (maxRetries j : Nat) (hmax : 0 < maxRetries)
    (hfail : ∀ n, attempt n = .error (f n))
    (hj : j < maxRetries)
    (hbefore : ∀ n, n < j → attemptS n = .error (g n))
    (hsucc : attemptS j = .ok ()) :
    connectWithRetry host attempt maxRetries
      = ⟨maxRetries,
         (List.range (maxRetries - 1)).map (fun n => min (1000 * 2 ^ n) 10000),
         .error (finalConnectError host maxRetries (f (maxRetries - 1)))⟩
    ∧ connectWithRetry host attemptS maxRetries
      = ⟨j + 1, (List.range j).map (fun n => min (1000 * 2 ^ n) 10000), .ok ()⟩ := by
  constructor
  · rw [connectWithRetry,
      connectLoop_allFail host attempt f hfail maxRetries maxRetries 0 (by omega) hmax]
    congr 1
    rw [range'_map_retryDelay, ← List.range_eq_range']
  · rw [connectWithRetry,
      connectLoop_success host attemptS g j maxRetries hbefore hsucc hj j 0 (by omega)]
    congr 1
    rw [range'_map_retryDelay, ← List.range_eq_range']

/-- Witness for C3: three always-failing attempts produce the delay list
`[1000, 2000]` and the wrapping error; an attempt succeeding on the
second try stops after two attempts and one 1000 ms delay. -/
theorem connectWithRetry_bound_witness :
    (connectWithRetry "h" (fun _ => .error (.timeoutError "t")) 3
      = ⟨3, (List.range (3 - 1)).map (fun n => min (1000 * 2 ^ n) 10000),
         .error (finalConnectError "h" 3 (.timeoutError "t"))⟩
    ∧ connectWithRetry "h" (fun n => if n < 1 then .error (.timeoutError "t") else .ok ()) 3
      = ⟨1 + 1, (List.range 1).map (fun n => min (1000 * 2 ^ n) 10000), .ok ()⟩)
    ∧ (List.range (3 - 1)).map (fun n => min (1000 * 2 ^ n) 10000) = [1000, 2000]
    ∧ (List.range 1).map (fun n => min (1000 * 2 ^ n) 10000) = [1000] :=
  ⟨connectWithRetry_bound "h" (fun _ => .error (.timeoutError "t"))
      (fun n => if n < 1 then .error (.timeoutError "t") else .ok ())
      (fun _ => .timeoutError "t") (fun _ => .timeoutError "t") 3 1 (by omega)
      (fun _ => rfl) (by omega)
      (fun n hn => by
        have h0 : n = 0 := by omega
        subst h0
        rfl)
      rfl,
   by decide, by decide⟩

/-- C4, counterexample: a call with `host` present, `username` absent and
every other input valid fails with `CommandExecutionError`, which is not
the `ValidationError` class the claim requires. -/
theorem username_missing_counterexample :
    (executeCommand ⟨1200000, 3, 30000, 10, 5242880, true, [], none⟩ (fun _ => false)
      (fun _ => .dir) [] "echo hi"
      ⟨some "h", none, "default", [], none, 30000⟩
      "/cwd" [] (fun _ _ _ => .procError "unused")
      (fun _ _ s => (.error (.timeoutError "unused"), s))
      = (.error (.commandExecutionError "Username is required when using SSH" none none), []))
    ∧ (ExecError.commandExecutionError "Username is required when using SSH" none none).isValidation
        = false :=
  ⟨rfl, rfl⟩

/-- C4 (amended): whenever `host` is truthy, `username` is not, and the
session-name, command and working-directory validations pass,
`executeCommand` fails with the `CommandExecutionError` reading
`Username is required when using SSH` — not a `ValidationError` — and
the session store is returned untouched. -/
theorem username_missing_rejected (cfg : ExecutorConfig) (dangerous : String → Bool)
    (stat : String → FsStat) (store : SessionStore) (command : String)
    (opts : ExecOptions) (cwd : String) (penv : List (String × String))
    (spawn : String → List (String × String) → String → SpawnOutcome)
    (sshExec : String → String → SessionStore → Except ExecError ExecResult × SessionStore)
    (hsn : validateSessionName opts.session = .ok ())
    (hcmd : validateCommand cfg dangerous command = .ok ())
    (hwd : validateWorkingDirectoryOpt cfg stat opts = .ok ())
    (hhost : strTruthy opts.host = true)
    (huser : strTruthy opts.username = false) :
    executeCommand cfg dangerous stat store command opts cwd penv spawn sshExec
      = (.error (.commandExecutionError "Username is required when using SSH" none none), store) := by
  simp [executeCommand, executeCommandGate, hsn, hcmd, hwd, hhost, huser]

/-- Witness for C4's amended theorem at the same concrete call as the
counterexample. -/
theorem username_missing_rejected_witness :
    executeCommand ⟨1200000, 3, 30000, 10, 5242880, true, [], none⟩ (fun _ => false)
      (fun _ => .dir) [] "echo hi"
      ⟨some "h", none, "default", [], none, 30000⟩
      "/cwd" [] (fun _ _ _ => .procError "unused")
      (fun _ _ s => (.error (.timeoutError "unused"), s))
      = (.error (.commandExecutionError "Username is required when using SSH" none none), []) :=
  username_missing_rejected _ _ _ _ _ _ _ _ _ _ rfl rfl rfl rfl rfl

/-- C5: a pure `export NAME=VALUE` local command is intercepted: the
result does not depend on the spawn oracle (no process is spawned), a
synthetic success with exit code 0 and empty stderr describing the
assignment is returned, the session overlay gains the trimmed name bound
to the quote-stripped value, and `removeMatchingQuotes` strips the
surrounding quotes exactly when they form a balanced same-quote pair
whose inner content has no further occurrence of that quote character
(`balancedQuotePair`), leaving the value unchanged otherwise. -/
theorem export_interception (store : SessionStore) (sessionKey command n v : String)
    (env : List (String × String)) (wd : Option String) (t : Nat) (cwd : String)
    (penv : List (String × String))
    (hm : exportMatch command = some (n, v))
    (hc : hasChainedCommands command = false) :
    (∀ spawn spawn2, executeLocally store sessionKey command env wd t cwd penv spawn
      = executeLocally store sessionKey command env wd t cwd penv spawn2)
    ∧ (∀ spawn, (executeLocally store sessionKey command env wd t cwd penv spawn).1
      = .ok ⟨"Environment variable " ++ jsTrim n ++ " set to "
          ++ removeMatchingQuotes (jsTrim v), "", 0⟩)
    ∧ (∀ spawn, ∃ sd,
      storeGet (executeLocally store sessionKey command env wd t cwd penv spawn).2 sessionKey
        = some sd
      ∧ envGet sd.env (jsTrim n) = some (removeMatchingQuotes (jsTrim v)))
    ∧ (∀ w, removeMatchingQuotes w
        = if balancedQuotePair w then jsDropRight (jsDrop w 1) 1 else w) := by
  refine ⟨?_, ?_, ?_, ?_⟩
  · intro spawn spawn2
    simp [executeLocally, hm, hc]
  · intro spawn
    simp [executeLocally, hm, hc]
  · intro spawn
    simp only [executeLocally, hm, hc, Bool.false_eq_true, if_false]
    exact ⟨_, storeGet_storeSet_self _ _ _, envGet_envSet_self _ _ _⟩
  · intro w
    by_cases hlen : w.length < 2
    · have hb : balancedQuotePair w = false := by
        have : ¬ 2 ≤ w.length := by omega
        simp [balancedQuotePair, this]
      simp [removeMatchingQuotes, hlen, hb]
    · have h2 : 2 ≤ w.length := by omega
      have hsd : ¬ (squote = dquote) := by decide
      have hds : ¬ (dquote = squote) := by decide
      by_cases hq : (jsFront w = dquote ∧ jsBack w = dquote) ∨ (jsFront w = squote ∧ jsBack w = squote)
      · by_cases hmid : jsContainsChar (jsDropRight (jsDrop w 1) 1) (jsFront w)
        · have hb : balancedQuotePair w = false := by
            simp [balancedQuotePair, hmid]
          simp only [removeMatchingQuotes, if_neg hlen]
          rcases hq with ⟨hf, hbk⟩ | ⟨hf, hbk⟩
          · rw [hf] at hmid
            simp [hf, hbk, hmid, hb]
          · rw [hf] at hmid
            simp [hf, hbk, hmid, hb]
        · rcases hq with ⟨hf, hbk⟩ | ⟨hf, hbk⟩
          · rw [hf] at hmid
            have hb : balancedQuotePair w = true := by
              simp [balancedQuotePair, h2, hf, hbk, hmid]
            simp only [removeMatchingQuotes, if_neg hlen]
            simp [hf, hbk, hmid, hb]
          · rw [hf] at hmid
            have hb : balancedQuotePair w = true := by
              simp [balancedQuotePair, h2, hf, hbk, hmid, hsd]
            simp only [removeMatchingQuotes, if_neg hlen]
            simp [hf, hbk, hmid, hb, hsd]
      · have hb : balancedQuotePair w = false := by
          by_cases hf : jsFront w = dquote
          · have hbkd : ¬ jsBack w = dquote := fun hh => hq (Or.inl ⟨hf, hh⟩)
            simp [balancedQuotePair, hf, hbkd]
          · by_cases hf2 : jsFront w = squote
            · have hbks : ¬ jsBack w = squote := fun hh => hq (Or.inr ⟨hf2, hh⟩)
              simp [balancedQuotePair, hf2, hbks, hsd]
            · simp [balancedQuotePair, hf, hf2]
        have hcond : ¬ ((jsFront w = dquote && jsBack w = dquote)
            || (jsFront w = squote && jsBack w = squote)) = true := by
          simp only [Bool.or_eq_true, Bool.and_eq_true, decide_eq_true_eq]
          exact hq
        simp [removeMatchingQuotes, hlen, hcond, hb]

/-- Witness for C5 at `export X="hello world"`: the value is stored as
`hello world`, while the unbalanced value `"foo'` is left untouched by
`removeMatchingQuotes`. -/
theorem export_interception_witness :
    (exportMatch "export X=\"hello world\"" = some ("X", "\"hello world\""))
    ∧ (hasChainedCommands "export X=\"hello world\"" = false)
    ∧ (∀ spawn, (executeLocally [] "local-default" "export X=\"hello world\"" [] none 30000 "/w" [] spawn).1
      = .ok ⟨"Environment variable " ++ jsTrim "X" ++ " set to "
          ++ removeMatchingQuotes (jsTrim "\"hello world\""), "", 0⟩)
    ∧ removeMatchingQuotes (jsTrim "\"hello world\"") = "hello world"
    ∧ removeMatchingQuotes ("\"foo" ++ String.singleton squote)
        = "\"foo" ++ String.singleton squote
    ∧ balancedQuotePair ("\"foo" ++ String.singleton squote) = false :=
  ⟨by decide, by decide,
   (export_interception [] "local-default" "export X=\"hello world\"" "X" "\"hello world\""
     [] none 30000 "/w" [] (by decide) (by decide)).2.1,
   by decide, by decide, by decide⟩

/-- C6, counterexample: `export FOO=bar;` satisfies the claim's
interception condition — nothing follows the assignment except a `;` —
yet it is not intercepted, because the chained-command detector fires on
the lone `;`. -/
theorem chained_export_counterexample :
    (exportMatch "export FOO=bar;").isSome = true
    ∧ isIntercepted "export FOO=bar;" = false :=
  ⟨by decide, by decide⟩

/-- C6 (amended): a local export is intercepted exactly when nothing at
all follows the assignment (empty remainder after the value run); any
trailing `;`, `|` or `&` — even a bare `;`, `&&` or `||` with nothing
after it — routes the command to the normal shell.  In particular
`export FOO=bar; echo done` is delegated whole to the spawn oracle and
the interception path stores nothing in the session overlay. -/
theorem interception_iff (command : String) :
    (isIntercepted command = true ↔ ∃ n v, exportParse command = some (n, v, ""))
    ∧ (∀ (t : Nat) (cwd : String) (penv : List (String × String))
        (spawn : String → List (String × String) → String → SpawnOutcome),
      executeLocally [] "local-default" "export FOO=bar; echo done" [] none t cwd penv spawn
        = (spawnDispatch t (spawn "export FOO=bar; echo done" penv cwd),
           [("local-default", ⟨[], cwd, none, none⟩)])) := by
  constructor
  · cases hc : exportParsePrefixCore command.data with
    | none => simp [isIntercepted, exportMatch, hasChainedCommands, exportParse, hc]
    | some nvr =>
      obtain ⟨nl, vl, rl⟩ := nvr
      cases rl with
      | nil =>
        have hmk : String.mk ([] : List Char) = "" := rfl
        apply iff_of_true
        · simp [isIntercepted, exportMatch, hasChainedCommands, exportParse, hc, hmk]
        · exact ⟨String.mk nl, String.mk vl, by simp [exportParse, hc, hmk]⟩
      | cons c rl2 =>
        have hval : isValueChar c = false :=
          exportParsePrefixCore_rest command.data nl vl c rl2 hc
        have hdisj : c = Char.ofNat 59 ∨ c = Char.ofNat 124 ∨ c = Char.ofNat 38 := by
          by_contra hcon
          push_neg at hcon
          exact (of_decide_eq_false hval) ⟨hcon.1, hcon.2.1, hcon.2.2⟩
        have hchain : hasChainedCommands command = true := by
          simp only [hasChainedCommands, exportParse, hc, Option.map_some']
          rcases hdisj with h | h | h <;> simp [h]
        apply iff_of_false
        · simp [isIntercepted, hchain]
        · rintro ⟨n2, v2, he⟩
          rw [exportParse, hc] at he
          simp only [Option.map_some'] at he
          injection he with he2
          have h3 := congrArg (fun p => p.2.2.data) he2
          simp only at h3
          exact List.noConfusion h3
  · intro t cwd penv spawn
    simp [executeLocally, envMerge,
      show exportMatch "export FOO=bar; echo done" = some ("FOO", "bar") from by decide,
      show hasChainedCommands "export FOO=bar; echo done" = true from by decide,
      storeGet, storeSet, strTruthy]

theorem containsSub_append_right (a b pat : List Char)
    (h : containsSub b pat = true) : containsSub (a ++ b) pat = true := by
  induction a with
  | nil => simpa using h
  | cons c cs ih =>
    simp only [List.cons_append, containsSub, Bool.or_eq_true]
    exact Or.inr ih

theorem strData_append (a b : String) : (a ++ b).data = a.data ++ b.data := by
  cases a
  cases b
  rfl

/-- C7: when the caller's timer fires before the end marker is seen, the
interactive-shell path resolves (does not reject) with exit code 124,
stdout equal to the partial output captured so far, and a stderr
containing a timed-out note; the local path's exec callback likewise
turns a killed or `ETIMEDOUT` process into a resolved 124 result whose
stdout is the captured partial output and whose stderr gains a timed-out
note. -/
theorem timeout_resolves_124 (marker command : String) (env : List (String × String))
    (chunks : List String) (timeout : Nat) (stdoutL stderrL : String)
    (codeNum : Option Int) (etim : Bool)
    (hm : ∀ c ∈ chunks, strContains c marker = false) :
    executeWithShell marker command env (chunks.map ShellEvent.data ++ [ShellEvent.timerFire])
      = some (.ok ⟨String.join chunks, "Command execution timed out", 124⟩)
    ∧ strContains "Command execution timed out" "timed out" = true
    ∧ localExecCallback timeout (some ⟨true, codeNum, etim⟩) stdoutL stderrL
      = ⟨stdoutL, stderrL ++ "\nCommand timed out after " ++ toString timeout ++ "ms", 124⟩
    ∧ strContains (stderrL ++ "\nCommand timed out after " ++ toString timeout ++ "ms")
        "timed out" = true := by
  refine ⟨?_, by decide, by simp [localExecCallback], ?_⟩
  · rw [executeWithShell, runShellEvents_timerFire marker _ command chunks "" "" hm]
    rfl
  · show containsSub ((stderrL ++ "\nCommand timed out after " ++ toString timeout ++ "ms").data)
      ("timed out").data = true
    simp only [strData_append]
    apply containsSub_append_left
    apply containsSub_append_left
    apply containsSub_append_right
    decide

/-- Witness for C7 at a command producing no output before the timer
(`sleep` with an empty data stream): stdout is empty, the exit code is
124 and both timed-out notes contain `timed out`. -/
theorem timeout_resolves_124_witness :
    (executeWithShell "MARKER" "sleep 5" [] (([] : List String).map ShellEvent.data ++ [ShellEvent.timerFire])
      = some (.ok ⟨String.join [], "Command execution timed out", 124⟩)
    ∧ strContains "Command execution timed out" "timed out" = true
    ∧ localExecCallback 1000 (some ⟨true, none, false⟩) "" ""
      = ⟨"", "" ++ "\nCommand timed out after " ++ toString 1000 ++ "ms", 124⟩
    ∧ strContains ("" ++ "\nCommand timed out after " ++ toString 1000 ++ "ms")
        "timed out" = true)
    ∧ String.join [] = "" :=
  ⟨timeout_resolves_124 "MARKER" "sleep 5" [] [] 1000 "" "" none false
    (fun c hc => absurd hc (List.not_mem_nil c)), by decide⟩

/-- C8: with the session store at or above the configured maximum, a
local command under a brand-new session key fails with
`ResourceLimitError` and the store is returned unchanged; a command under
an existing key bypasses the ceiling and runs the local engine; and after
deleting one session exactly one more new key can be created — the
engine runs for the first fresh key, and a second distinct fresh key
against the resulting store fails with `ResourceLimitError` again. -/
theorem session_ceiling (cfg : ExecutorConfig) (store : SessionStore)
    (kNew kEx kOld k1 k2 command : String) (env : List (String × String))
    (wd : Option String) (t : Nat) (cwd : String) (penv : List (String × String))
    (spawn : String → List (String × String) → String → SpawnOutcome)
    (h1 : storeHas store kNew = false)
    (h2 : cfg.maxConcurrentSessions ≤ store.length)
    (h3 : storeHas store kEx = true)
    (h4 : store.length = cfg.maxConcurrentSessions)
    (h5 : storeHas store kOld = true)
    (h6 : storeHas store k1 = false)
    (h7 : storeHas store k2 = false)
    (h8 : k1 ≠ k2) :
    (localRoutePath cfg store kNew command env wd t cwd penv spawn
      = (.error (.resourceLimitError ("Maximum concurrent sessions limit reached ("
          ++ toString cfg.maxConcurrentSessions
          ++ "). Close existing sessions or increase MAX_CONCURRENT_SESSIONS.")), store))
    ∧ (localRoutePath cfg store kEx command env wd t cwd penv spawn
      = ((executeLocally store kEx command env wd t cwd penv spawn).1.map (governResult cfg),
         (executeLocally store kEx command env wd t cwd penv spawn).2))
    ∧ (localRoutePath cfg (storeDelete store kOld) k1 command env wd t cwd penv spawn
      = ((executeLocally (storeDelete store kOld) k1 command env wd t cwd penv spawn).1.map
           (governResult cfg),
         (executeLocally (storeDelete store kOld) k1 command env wd t cwd penv spawn).2))
    ∧ (localRoutePath cfg
        (executeLocally (storeDelete store kOld) k1 command env wd t cwd penv spawn).2
        k2 command env wd t cwd penv spawn
      = (.error (.resourceLimitError ("Maximum concurrent sessions limit reached ("
          ++ toString cfg.maxConcurrentSessions
          ++ "). Close existing sessions or increase MAX_CONCURRENT_SESSIONS.")),
         (executeLocally (storeDelete store kOld) k1 command env wd t cwd penv spawn).2)) := by
  have hlen1 : (storeDelete store kOld).length + 1 = store.length :=
    length_storeDelete store kOld h5
  have hdel1 : storeHas (storeDelete store kOld) k1 = false :=
    storeHas_storeDelete_of_not store kOld k1 h6
  have hdel2 : storeHas (storeDelete store kOld) k2 = false :=
    storeHas_storeDelete_of_not store kOld k2 h7
  refine ⟨?_, ?_, ?_, ?_⟩
  · have hge : store.length ≥ cfg.maxConcurrentSessions := h2
    simp [localRoutePath, h1, checkSessionLimit, hge]
  · simp [localRoutePath, h3]
  · have hlt : ¬ ((storeDelete store kOld).length ≥ cfg.maxConcurrentSessions) := by omega
    simp [localRoutePath, hdel1, checkSessionLimit, hlt]
  · have hhas2 : storeHas
        (executeLocally (storeDelete store kOld) k1 command env wd t cwd penv spawn).2 k2
        = false := by
      rw [executeLocally_snd_has]
      simp [hdel2, Ne.symm h8]
    have hlen2 :
        (executeLocally (storeDelete store kOld) k1 command env wd t cwd penv spawn).2.length
          = store.length := by
      rw [executeLocally_snd_length, hdel1]
      simp
      omega
    have hge2 : (executeLocally (storeDelete store kOld) k1 command env wd t cwd penv spawn).2.length
        ≥ cfg.maxConcurrentSessions := by omega
    simp [localRoutePath, hhas2, checkSessionLimit, hge2]

/-- Witness for C8 with a one-session ceiling: the store holds
`local-a`; `local-x` is rejected, `local-a` still runs, and after
deleting `local-a` the key `local-b` runs while `local-c` is rejected. -/
theorem session_ceiling_witness :
    (localRoutePath ⟨0, 0, 0, 1, 5242880, true, [], none⟩
        [("local-a", ⟨[], "/", none, none⟩)] "local-x" "pwd" [] none 1000 "/" []
        (fun _ _ _ => .procError "unused")
      = (.error (.resourceLimitError ("Maximum concurrent sessions limit reached ("
          ++ toString (1 : Nat)
          ++ "). Close existing sessions or increase MAX_CONCURRENT_SESSIONS.")),
         [("local-a", ⟨[], "/", none, none⟩)]))
    ∧ (localRoutePath ⟨0, 0, 0, 1, 5242880, true, [], none⟩
        [("local-a", ⟨[], "/", none, none⟩)] "local-a" "pwd" [] none 1000 "/" []
        (fun _ _ _ => .procError "unused")
      = ((executeLocally [("local-a", ⟨[], "/", none, none⟩)] "local-a" "pwd" [] none 1000 "/" []
           (fun _ _ _ => .procError "unused")).1.map
             (governResult ⟨0, 0, 0, 1, 5242880, true, [], none⟩),
         (executeLocally [("local-a", ⟨[], "/", none, none⟩)] "local-a" "pwd" [] none 1000 "/" []
           (fun _ _ _ => .procError "unused")).2))
    ∧ (localRoutePath ⟨0, 0, 0, 1, 5242880, true, [], none⟩
        (storeDelete [("local-a", ⟨[], "/", none, none⟩)] "local-a") "local-b" "pwd" [] none 1000 "/" []
        (fun _ _ _ => .procError "unused")
      = ((executeLocally (storeDelete [("local-a", ⟨[], "/", none, none⟩)] "local-a") "local-b"
            "pwd" [] none 1000 "/" [] (fun _ _ _ => .procError "unused")).1.map
             (governResult ⟨0, 0, 0, 1, 5242880, true, [], none⟩),
         (executeLocally (storeDelete [("local-a", ⟨[], "/", none, none⟩)] "local-a") "local-b"
            "pwd" [] none 1000 "/" [] (fun _ _ _ => .procError "unused")).2))
    ∧ (localRoutePath ⟨0, 0, 0, 1, 5242880, true, [], none⟩
        (executeLocally (storeDelete [("local-a", ⟨[], "/", none, none⟩)] "local-a") "local-b"
            "pwd" [] none 1000 "/" [] (fun _ _ _ => .procError "unused")).2
        "local-c" "pwd" [] none 1000 "/" [] (fun _ _ _ => .procError "unused")
      = (.error (.resourceLimitError ("Maximum concurrent sessions limit reached ("
          ++ toString (1 : Nat)
          ++ "). Close existing sessions or increase MAX_CONCURRENT_SESSIONS.")),
         (executeLocally (storeDelete [("local-a", ⟨[], "/", none, none⟩)] "local-a") "local-b"
            "pwd" [] none 1000 "/" [] (fun _ _ _ => .procError "unused")).2)) :=
  session_ceiling ⟨0, 0, 0, 1, 5242880, true, [], none⟩
    [("local-a", ⟨[], "/", none, none⟩)] "local-x" "local-a" "local-a" "local-b" "local-c"
    "pwd" [] none 1000 "/" [] (fun _ _ _ => .procError "unused")
    (by decide) (by decide) (by decide) (by decide) (by decide) (by decide) (by decide)
    (by decide)

end TerminalMcp
